import Mathlib

/-!
Verification of the authentication gate of the `mini-ecommerce-next`
repository: the Basic-Auth request middleware (`middleware.ts`) and the
password hashing / verification routine (`lib/isValidPassword.ts`).

The development shallowly embeds the JavaScript code:

* machine words are `Nat` reduced modulo `2 ^ 64` where the source relies
  on 64-bit arithmetic (the SHA-512 compression function);
* byte sequences are `List Nat` with every entry `< 256`;
* JavaScript strings are Lean `String`s; values that may be `undefined`
  are `Option String`;
* the one fallible operation on the request path,
  `Buffer.from(undefined, "base64")`, is modelled with `Except JsError`.
-/

/-! ### 64-bit word arithmetic used by SHA-512 -/

/-- Truncate a natural number to a 64-bit word, as JavaScript `BigInt.asUintN`
or the C implementation's `uint64_t` arithmetic would. -/
def w64 (n : Nat) : Nat := n % 18446744073709551616

/-- Right rotation of a 64-bit word. -/
def rotr64 (r x : Nat) : Nat := (x >>> r) ||| w64 (x <<< (64 - r))

/-- Bitwise complement of a 64-bit word. -/
def not64 (x : Nat) : Nat := x ^^^ 18446744073709551615

/-- SHA-512 `Ch` function. -/
def shaCh (x y z : Nat) : Nat := (x &&& y) ^^^ (not64 x &&& z)

/-- SHA-512 `Maj` function. -/
def shaMaj (x y z : Nat) : Nat := (x &&& y) ^^^ (x &&& z) ^^^ (y &&& z)

/-- SHA-512 big sigma 0. -/
def bigSigma0 (x : Nat) : Nat := rotr64 28 x ^^^ rotr64 34 x ^^^ rotr64 39 x

/-- SHA-512 big sigma 1. -/
def bigSigma1 (x : Nat) : Nat := rotr64 14 x ^^^ rotr64 18 x ^^^ rotr64 41 x

/-- SHA-512 small sigma 0. -/
def smallSigma0 (x : Nat) : Nat := rotr64 1 x ^^^ rotr64 8 x ^^^ (x >>> 7)

/-- SHA-512 small sigma 1. -/
def smallSigma1 (x : Nat) : Nat := rotr64 19 x ^^^ rotr64 61 x ^^^ (x >>> 6)

/-- The 80 SHA-512 round constants (FIPS 180-4, section 4.2.3). -/
def K512 : List Nat := [
  0x428A2F98D728AE22, 0x7137449123EF65CD, 0xB5C0FBCFEC4D3B2F, 0xE9B5DBA58189DBBC, 0x3956C25BF348B538,
  0x59F111F1B605D019, 0x923F82A4AF194F9B, 0xAB1C5ED5DA6D8118, 0xD807AA98A3030242, 0x12835B0145706FBE,
  0x243185BE4EE4B28C, 0x550C7DC3D5FFB4E2, 0x72BE5D74F27B896F, 0x80DEB1FE3B1696B1, 0x9BDC06A725C71235,
  0xC19BF174CF692694, 0xE49B69C19EF14AD2, 0xEFBE4786384F25E3, 0x0FC19DC68B8CD5B5, 0x240CA1CC77AC9C65,
  0x2DE92C6F592B0275, 0x4A7484AA6EA6E483, 0x5CB0A9DCBD41FBD4, 0x76F988DA831153B5, 0x983E5152EE66DFAB,
  0xA831C66D2DB43210, 0xB00327C898FB213F, 0xBF597FC7BEEF0EE4, 0xC6E00BF33DA88FC2, 0xD5A79147930AA725,
  0x06CA6351E003826F, 0x142929670A0E6E70, 0x27B70A8546D22FFC, 0x2E1B21385C26C926, 0x4D2C6DFC5AC42AED,
  0x53380D139D95B3DF, 0x650A73548BAF63DE, 0x766A0ABB3C77B2A8, 0x81C2C92E47EDAEE6, 0x92722C851482353B,
  0xA2BFE8A14CF10364, 0xA81A664BBC423001, 0xC24B8B70D0F89791, 0xC76C51A30654BE30, 0xD192E819D6EF5218,
  0xD69906245565A910, 0xF40E35855771202A, 0x106AA07032BBD1B8, 0x19A4C116B8D2D0C8, 0x1E376C085141AB53,
  0x2748774CDF8EEB99, 0x34B0BCB5E19B48A8, 0x391C0CB3C5C95A63, 0x4ED8AA4AE3418ACB, 0x5B9CCA4F7763E373,
  0x682E6FF3D6B2B8A3, 0x748F82EE5DEFB2FC, 0x78A5636F43172F60, 0x84C87814A1F0AB72, 0x8CC702081A6439EC,
  0x90BEFFFA23631E28, 0xA4506CEBDE82BDE9, 0xBEF9A3F7B2C67915, 0xC67178F2E372532B, 0xCA273ECEEA26619C,
  0xD186B8C721C0C207, 0xEADA7DD6CDE0EB1E, 0xF57D4F7FEE6ED178, 0x06F067AA72176FBA, 0x0A637DC5A2C898A6,
  0x113F9804BEF90DAE, 0x1B710B35131C471B, 0x28DB77F523047D84, 0x32CAAB7B40C72493, 0x3C9EBE0A15C9BEBC,
  0x431D67C49C100D4C, 0x4CC5D4BECB3E42B6, 0x597F299CFC657E2A, 0x5FCB6FAB3AD6FAEC, 0x6C44198C4A475817
]

/-- The SHA-512 initial hash value (FIPS 180-4, section 5.3.5). -/
def H512 : List Nat := [
  0x6A09E667F3BCC908, 0xBB67AE8584CAA73B, 0x3C6EF372FE94F82B,
  0xA54FF53A5F1D36F1, 0x510E527FADE682D1, 0x9B05688C2B3E6C1F,
  0x1F83D9ABFB41BD6B, 0x5BE0CD19137E2179
]

/-- Extend the message schedule.  `acc` holds the schedule words computed so
far in reverse order (newest first); `k` more words are appended. -/
def scheduleRev (acc : List Nat) : Nat → List Nat
  | 0 => acc
  | k + 1 =>
    scheduleRev
      (w64 (smallSigma1 (acc.getD 1 0) + acc.getD 6 0 +
        smallSigma0 (acc.getD 14 0) + acc.getD 15 0) :: acc) k

/-- One round of the SHA-512 compression function.  The state is the list
`[a, b, c, d, e, f, g, h]`; `kw` is the round constant paired with the
schedule word. -/
def compressRound (st : List Nat) (kw : Nat × Nat) : List Nat :=
  match st with
  | [a, b, c, d, e, f, g, h] =>
    let t1 := w64 (h + bigSigma1 e + shaCh e f g + kw.1 + kw.2)
    let t2 := w64 (bigSigma0 a + shaMaj a b c)
    [w64 (t1 + t2), a, b, c, w64 (d + t1), e, f, g]
  | other => other

/-- Process one 16-word message block. -/
def sha512Compress (h : List Nat) (block : List Nat) : List Nat :=
  let w := (scheduleRev block.reverse 64).reverse
  let final := (K512.zip w).foldl compressRound h
  List.zipWith (fun x y => w64 (x + y)) h final

/-- Big-endian byte serialisation of `n` into `k` bytes. -/
def toBytesBE : Nat → Nat → List Nat
  | 0, _ => []
  | k + 1, n => toBytesBE k (n / 256) ++ [n % 256]

/-- Group a byte list into big-endian 64-bit words (eight bytes per word). -/
def bytesToWords : List Nat → List Nat
  | b0 :: b1 :: b2 :: b3 :: b4 :: b5 :: b6 :: b7 :: rest =>
    (((((((b0 * 256 + b1) * 256 + b2) * 256 + b3) * 256 + b4) * 256 + b5)
      * 256 + b6) * 256 + b7) :: bytesToWords rest
  | _ => []

/-- Serialise the eight state words of a digest back to bytes. -/
def wordsToBytes : List Nat → List Nat
  | [] => []
  | x :: xs => toBytesBE 8 x ++ wordsToBytes xs

/-- Fold the compression function over the 128-byte blocks of the padded
message.  The fuel argument makes the recursion structural; it is always
instantiated with at least the number of blocks. -/
def sha512Blocks : Nat → List Nat → List Nat → List Nat
  | 0, h, _ => h
  | _ + 1, h, [] => h
  | fuel + 1, h, bytes =>
    sha512Blocks fuel (sha512Compress h (bytesToWords (bytes.take 128))) (bytes.drop 128)

/-- SHA-512 of a byte sequence (FIPS 180-4): append `0x80`, zero-pad to 112
modulo 128, append the 128-bit big-endian bit length, then compress each
128-byte block and serialise the final state. -/
def sha512 (msg : List Nat) : List Nat :=
  let padded := msg ++ 0x80 ::
    (List.replicate ((128 - (msg.length + 17) % 128) % 128) 0 ++
      toBytesBE 16 (msg.length * 8))
  wordsToBytes (sha512Blocks (padded.length / 128 + 1) H512 padded)

/-! ### UTF-8 (`TextEncoder.encode` / `Buffer.toString()`) -/

/-- UTF-8 encoding of a single Unicode scalar value. -/
def utf8EncodeChar (c : Char) : List Nat :=
  let n := c.toNat
  if n < 0x80 then [n]
  else if n < 0x800 then [0xC0 + n / 64, 0x80 + n % 64]
  else if n < 0x10000 then [0xE0 + n / 4096, 0x80 + n / 64 % 64, 0x80 + n % 64]
  else [0xF0 + n / 262144, 0x80 + n / 4096 % 64, 0x80 + n / 64 % 64, 0x80 + n % 64]

/-- UTF-8 encoding of a character sequence. -/
def utf8EncodeList : List Char → List Nat
  | [] => []
  | c :: cs => utf8EncodeChar c ++ utf8EncodeList cs

/-- UTF-8 encoding of a string, as `new TextEncoder().encode(s)` produces. -/
def utf8Encode (s : String) : List Nat := utf8EncodeList s.data

/-- The U+FFFD replacement character emitted for invalid byte sequences. -/
def fffdChar : Char := Char.ofNat 0xFFFD

/-- State of the WHATWG incremental UTF-8 decoder: the partial code point,
the number of continuation bytes still expected, and the admissible range of
the next continuation byte (which rules out overlong forms and
surrogates). -/
structure Utf8State where
  codepoint : Nat
  needed : Nat
  lower : Nat
  upper : Nat

/-- The decoder state at a sequence boundary. -/
def utf8InitState : Utf8State := ⟨0, 0, 0x80, 0xBF⟩

/-- Process one byte at a sequence boundary: an ASCII byte is emitted, a
valid lead byte opens a multi-byte sequence with the appropriate
continuation range, and anything else is replaced. -/
def utf8StepFresh (b : Nat) : Utf8State × List Char :=
  if b < 0x80 then (utf8InitState, [Char.ofNat b])
  else if b < 0xC2 then (utf8InitState, [fffdChar])
  else if b < 0xE0 then (⟨b - 0xC0, 1, 0x80, 0xBF⟩, [])
  else if b < 0xF0 then
    (⟨b - 0xE0, 2, if b = 0xE0 then 0xA0 else 0x80, if b = 0xED then 0x9F else 0xBF⟩, [])
  else if b < 0xF5 then
    (⟨b - 0xF0, 3, if b = 0xF0 then 0x90 else 0x80, if b = 0xF4 then 0x8F else 0xBF⟩, [])
  else (utf8InitState, [fffdChar])

/-- Process one byte: inside a multi-byte sequence an in-range continuation
byte is absorbed (completing the scalar when it is the last one); an
out-of-range byte emits a replacement and is reprocessed as a fresh byte. -/
def utf8Step (st : Utf8State) (b : Nat) : Utf8State × List Char :=
  if st.needed = 0 then utf8StepFresh b
  else if st.lower ≤ b ∧ b ≤ st.upper then
    if st.needed = 1 then (utf8InitState, [Char.ofNat (st.codepoint * 64 + (b - 0x80))])
    else (⟨st.codepoint * 64 + (b - 0x80), st.needed - 1, 0x80, 0xBF⟩, [])
  else
    match utf8StepFresh b with
    | (st2, out) => (st2, fffdChar :: out)

/-- Run the incremental decoder over a byte list; a truncated final
sequence yields a single replacement character. -/
def utf8DecodeLoop (st : Utf8State) : List Nat → List Char
  | [] => if st.needed = 0 then [] else [fffdChar]
  | b :: bs =>
    match utf8Step st b with
    | (st2, out) => out ++ utf8DecodeLoop st2 bs

/-- UTF-8 decoding of a byte sequence with U+FFFD replacement for invalid
input, as `Buffer.prototype.toString()` ("utf8") performs. -/
def utf8Decode (bs : List Nat) : List Char := utf8DecodeLoop utf8InitState bs

/-! ### Base64 (`Buffer.toString("base64")` / `Buffer.from(s, "base64")`) -/

/-- The standard base64 alphabet. -/
def b64Chars : List Char :=
  "ABCDEFGHIJKLMNOPQRSTUVWXYZabcdefghijklmnopqrstuvwxyz0123456789+/".data

/-- The base64 digit for a 6-bit value. -/
def b64Char (v : Nat) : Char := b64Chars.getD v 'A'

/-- Scan the alphabet for a character, returning its index. -/
def b64ValAux : List Char → Nat → Char → Option Nat
  | [], _, _ => none
  | a :: as, i, c => if a = c then some i else b64ValAux as (i + 1) c

/-- The 6-bit value of a base64 digit, `none` for characters outside the
alphabet (Node's decoder skips those). -/
def b64Val (c : Char) : Option Nat := b64ValAux b64Chars 0 c

/-- Base64 encoding of a byte list, three bytes to four digits with `=`
padding. -/
def base64EncodeChars : List Nat → List Char
  | [] => []
  | [b0] => [b64Char (b0 / 4), b64Char (b0 % 4 * 16), '=', '=']
  | [b0, b1] => [b64Char (b0 / 4), b64Char (b0 % 4 * 16 + b1 / 16), b64Char (b1 % 16 * 4), '=']
  | b0 :: b1 :: b2 :: rest =>
    b64Char (b0 / 4) :: b64Char (b0 % 4 * 16 + b1 / 16) ::
      b64Char (b1 % 16 * 4 + b2 / 64) :: b64Char (b2 % 64) :: base64EncodeChars rest

/-- Base64 encoding as a string, as `Buffer.prototype.toString("base64")`
produces. -/
def base64Encode (bs : List Nat) : String := String.mk (base64EncodeChars bs)

/-- Decode a sequence of 6-bit values to bytes.  A trailing group of two or
three values yields one or two bytes; a lone value is dropped, as in Node. -/
def decodeGroups : List Nat → List Nat
  | v0 :: v1 :: v2 :: v3 :: vs =>
    (v0 * 4 + v1 / 16) :: (v1 % 16 * 16 + v2 / 4) :: (v2 % 4 * 64 + v3) :: decodeGroups vs
  | [v0, v1, v2] => [v0 * 4 + v1 / 16, v1 % 16 * 16 + v2 / 4]
  | [v0, v1] => [v0 * 4 + v1 / 16]
  | _ => []

/-- Node's forgiving base64 decoder (`Buffer.from(s, "base64")`): stop at the
first `=` padding character, skip characters outside the alphabet, and decode
the remaining digit stream. -/
def base64DecodeChars (cs : List Char) : List Nat :=
  decodeGroups ((cs.takeWhile fun c => c ≠ '=').filterMap b64Val)

/-! ### The credential verifier (`lib/isValidPassword.ts`) -/

/-- The runtime fault the gate can raise: the `TypeError` thrown by
`Buffer.from(undefined, "base64")` when the header has no second token. -/
inductive JsError where
  | typeError
deriving DecidableEq


/-- `new TextEncoder().encode(input)`: the argument is a WebIDL `USVString`
with default `""`, so an `undefined` argument (the missing-colon case in the
caller) encodes as the empty string. -/
def textEncoderEncode : Option String → List Nat
  | none => utf8Encode ""
  | some s => utf8Encode s

/-- `hashPassword`: SHA-512 the UTF-8 bytes of the password and render the
digest in base64. -/
def hashPassword (password : Option String) : String :=
  base64Encode (sha512 (textEncoderEncode password))

/-- JavaScript strict equality `===` restricted to string-or-undefined
values: `undefined === undefined` is true, a string never equals
`undefined`, and strings compare by value. -/
def jsStrictEq (a b : Option String) : Bool := a == b

/-- `isValidPassword`: hash the supplied password and strictly compare the
rendered digest with the stored digest. -/
def isValidPassword (password hashedPassword : Option String) : Bool :=
  jsStrictEq (some (hashPassword password)) hashedPassword

/-- `crypto.subtle.digest("SHA-512", data)` as a fallible step: the promise
rejects only for unsupported algorithm names, and `"SHA-512"` is supported,
so the step always succeeds with the digest. -/
def subtleDigestSha512 (data : List Nat) : Except JsError (List Nat) :=
  Except.ok (sha512 data)

/-- `hashPassword` with each potentially fallible JavaScript step explicit:
`TextEncoder.encode` is total on string-or-undefined input, the digest
promise resolves, and `Buffer.from(ArrayBuffer).toString("base64")` is
total. -/
def hashPasswordRun (password : Option String) : Except JsError String := do
  let digest ← subtleDigestSha512 (textEncoderEncode password)
  Except.ok (base64Encode digest)

/-- `isValidPassword` with its fallible steps explicit. -/
def isValidPasswordRun (password hashedPassword : Option String) :
    Except JsError Bool := do
  let h ← hashPasswordRun password
  Except.ok (jsStrictEq (some h) hashedPassword)

/-! ### The request gate (`middleware.ts`) -/

/-- An inbound request: only the header list is relevant to the gate. -/
structure NextRequest where
  headers : List (String × String)

/-- A constructed response: body text, HTTP status and response headers. -/
structure NextResponse where
  body : String
  status : Nat
  headers : List (String × String)
deriving DecidableEq

/-- The environment configuration read by the gate; either variable may be
unprovisioned (`undefined`). -/
structure Env where
  ADMIN_USERNAME : Option String
  HASHED_ADMIN_PASSWORD : Option String

/-- ASCII-lowercase a header name, for the case-insensitive lookup the Fetch
`Headers` object performs. -/
def lowerStr (s : String) : String := String.mk (s.data.map Char.toLower)

/-- `req.headers.get(name)`: case-insensitive lookup returning `null` when
the header is absent. -/
def headersGet (req : NextRequest) (name : String) : Option String :=
  (req.headers.find? fun p => lowerStr p.fst == lowerStr name).map Prod.snd

/-- JavaScript `a || b` on string-or-null values: `null` and the empty
string are falsy. -/
def jsOr : Option String → Option String → Option String
  | none, b => b
  | some s, b => if s = "" then b else some s

/-- JavaScript `String.prototype.split` with a one-character separator:
split at every occurrence, preserving empty segments; the result is never
empty. -/
def charSplit (sep : Char) : List Char → List (List Char)
  | [] => [[]]
  | c :: cs =>
    if c = sep then [] :: charSplit sep cs
    else
      match charSplit sep cs with
      | [] => [[c]]
      | g :: gs => (c :: g) :: gs

/-- The rejection response built by the middleware:
`new NextResponse("Unauthorized", { status: 401, headers: { "WWW-Authenticate": "Basic" } })`. -/
def unauthorizedResponse : NextResponse :=
  { body := "Unauthorized", status := 401,
    headers := [("WWW-Authenticate", "Basic")] }

/-- `isAuthenticated(req)`: read the Authorization header (either casing,
combined with `||`), take the text after the first space, base64-decode it,
interpret the bytes as UTF-8 text, split on every colon, destructure the
first two segments as username and password, and require the username to
strictly equal `ADMIN_USERNAME` and the password to verify against
`HASHED_ADMIN_PASSWORD`.  If the header value has no second space-delimited
token, `authHeader.split(" ")[1]` is `undefined` and
`Buffer.from(undefined, "base64")` throws a `TypeError`. -/
def isAuthenticated (env : Env) (req : NextRequest) : Except JsError Bool :=
  match jsOr (headersGet req "authorization") (headersGet req "Authorization") with
  | none => Except.ok false
  | some authHeader =>
    match (charSplit ' ' authHeader.data)[1]? with
    | none => Except.error JsError.typeError
    | some tokenChars =>
      let decoded := utf8Decode (base64DecodeChars tokenChars)
      let parts := charSplit ':' decoded
      let username := (parts[0]?).map String.mk
      let password := (parts[1]?).map String.mk
      Except.ok (jsStrictEq username env.ADMIN_USERNAME &&
        isValidPassword password env.HASHED_ADMIN_PASSWORD)

/-- `middleware(req)`: return the 401 response when `isAuthenticated`
resolves to `false`, otherwise return `undefined` so the request
continues. -/
def middleware (env : Env) (req : NextRequest) :
    Except JsError (Option NextResponse) :=
  match isAuthenticated env req with
  | Except.error e => Except.error e
  | Except.ok b =>
    if b = false then Except.ok (some unauthorizedResponse) else Except.ok none

/-- The exported route matcher configuration. -/
def configMatcher : String := "/admin/:path*"

/-- A request carrying a single `Authorization` header. -/
def mkReq (value : String) : NextRequest :=
  { headers := [("Authorization", value)] }

/-- The boolean the gate computes once the base64 payload has been decoded
to the character sequence `decoded`. -/
def authDecision (env : Env) (decoded : List Char) : Bool :=
  jsStrictEq (((charSplit ':' decoded)[0]?).map String.mk) env.ADMIN_USERNAME &&
    isValidPassword (((charSplit ':' decoded)[1]?).map String.mk) env.HASHED_ADMIN_PASSWORD

set_option maxRecDepth 100000

/-! ### Helper lemmas: strings and splitting -/

/-- The character data of a literal `String.mk`. -/
theorem strMk_data (l : List Char) : (String.mk l).data = l := rfl

/-- Rebuilding a string from its character data is the identity. -/
theorem strMk_eta (s : String) : String.mk s.data = s := rfl

/-- JavaScript `split` never returns an empty array. -/
theorem charSplit_ne_nil (sep : Char) (l : List Char) : charSplit sep l ≠ [] := by
  induction l with
  | nil => simp [charSplit]
  | cons c cs ih =>
    simp only [charSplit]
    split
    · simp
    · split
      · simp
      · simp

/-- Splitting a separator-free list yields the single segment. -/
theorem charSplit_no_sep (sep : Char) (l : List Char) (h : ∀ c ∈ l, c ≠ sep) :
    charSplit sep l = [l] := by
  induction l with
  | nil => rfl
  | cons c cs ih =>
    have hc : c ≠ sep := h c (by simp)
    have ih2 := ih fun x hx => h x (by simp [hx])
    simp [charSplit, hc, ih2]

/-- Splitting past a separator-free prefix peels off that prefix as the
first segment. -/
theorem charSplit_append (sep : Char) (u rest : List Char) (h : ∀ c ∈ u, c ≠ sep) :
    charSplit sep (u ++ sep :: rest) = u :: charSplit sep rest := by
  induction u with
  | nil => simp [charSplit]
  | cons c cs ih =>
    have hc : c ≠ sep := h c (by simp)
    have ih2 := ih fun x hx => h x (by simp [hx])
    simp [charSplit, hc, ih2]

/-! ### Helper lemmas: base64 -/

/-- Every 6-bit value decodes back from its base64 digit. -/
theorem b64Val_b64Char : ∀ v, v < 64 → b64Val (b64Char v) = some v := by decide

/-- No base64 digit is the padding character. -/
theorem b64Char_ne_pad : ∀ v, v < 64 → b64Char v ≠ '=' := by decide

/-- No base64 digit is a space. -/
theorem b64Char_ne_space : ∀ v, v < 64 → b64Char v ≠ ' ' := by decide

/-- Peel one alphabet character off the digit stream of the decoder. -/
theorem b64_digits_cons (c : Char) (v : Nat) (hv : b64Val c = some v) (hne : c ≠ '=')
    (cs : List Char) :
    ((c :: cs).takeWhile fun x => x ≠ '=').filterMap b64Val =
      v :: ((cs.takeWhile fun x => x ≠ '=').filterMap b64Val) := by
  simp [List.takeWhile_cons, hne, hv]

/-- The digit stream stops at the padding character. -/
theorem b64_digits_pad (cs : List Char) :
    ((('=' :: cs)).takeWhile fun x => x ≠ '=').filterMap b64Val = [] := by
  simp [List.takeWhile_cons]

/-- Decoding the UTF-8 encoding of one scalar value at a sequence boundary
emits exactly that character and returns to the boundary state. -/
theorem utf8DecodeLoop_encodeChar (c : Char) (bs : List Nat) :
    utf8DecodeLoop utf8InitState (utf8EncodeChar c ++ bs) =
      c :: utf8DecodeLoop utf8InitState bs := by
  have hofNat := Char.ofNat_toNat c
  have hval : c.toNat < 0xd800 ∨ (0xe000 ≤ c.toNat ∧ c.toNat < 0x110000) := c.valid
  by_cases h1 : c.toNat < 0x80
  · have hc : utf8EncodeChar c = [c.toNat] := by simp [utf8EncodeChar, h1]
    rw [hc]
    simp only [List.cons_append, List.nil_append, utf8DecodeLoop, utf8Step,
      utf8StepFresh, utf8InitState]
    simp [h1, hofNat]
  · by_cases h2 : c.toNat < 0x800
    · have hc : utf8EncodeChar c = [0xC0 + c.toNat / 64, 0x80 + c.toNat % 64] := by
        simp [utf8EncodeChar, h1, h2]
      have e1 : ¬(0xC0 + c.toNat / 64 < 0x80) := by omega
      have e2 : ¬(0xC0 + c.toNat / 64 < 0xC2) := by omega
      have e3 : 0xC0 + c.toNat / 64 < 0xE0 := by omega
      have e4 : 0x80 ≤ 0x80 + c.toNat % 64 ∧ 0x80 + c.toNat % 64 ≤ 0xBF := by omega
      rw [hc]
      simp only [List.cons_append, List.nil_append, utf8DecodeLoop, utf8Step,
        utf8StepFresh, utf8InitState]
      simp [e1, e2, e3, e4]
      exact Eq.trans (congrArg Char.ofNat (by omega)) hofNat
    · by_cases h3 : c.toNat < 0x10000
      · have hc : utf8EncodeChar c = [0xE0 + c.toNat / 4096,
            0x80 + c.toNat / 64 % 64, 0x80 + c.toNat % 64] := by
          simp [utf8EncodeChar, h1, h2, h3]
        have e1 : ¬(0xE0 + c.toNat / 4096 < 0x80) := by omega
        have e2 : ¬(0xE0 + c.toNat / 4096 < 0xC2) := by omega
        have e3 : ¬(0xE0 + c.toNat / 4096 < 0xE0) := by omega
        have e4 : 0xE0 + c.toNat / 4096 < 0xF0 := by omega
        have elow : (if c.toNat / 4096 = 0 then 0xA0 else 0x80 : Nat) ≤
            0x80 + c.toNat / 64 % 64 := by
          by_cases hE : c.toNat / 4096 = 0
          · rw [if_pos hE]
            omega
          · rw [if_neg hE]
            omega
        have ehigh : 0x80 + c.toNat / 64 % 64 ≤
            (if 0xE0 + c.toNat / 4096 = 0xED then 0x9F else 0xBF : Nat) := by
          by_cases hD : 0xE0 + c.toNat / 4096 = 0xED
          · rw [if_pos hD]
            omega
          · rw [if_neg hD]
            omega
        have e7a : 0x80 ≤ 0x80 + c.toNat % 64 := by omega
        have e7b : 0x80 + c.toNat % 64 ≤ 0xBF := by omega
        rw [hc]
        simp only [List.cons_append, List.nil_append, utf8DecodeLoop, utf8Step,
          utf8StepFresh, utf8InitState]
        simp [e1, e2, e3, e4, elow, ehigh, e7a, e7b]
        exact Eq.trans (congrArg Char.ofNat (by omega)) hofNat
      · have h4 : c.toNat < 0x110000 := by omega
        have hc : utf8EncodeChar c = [0xF0 + c.toNat / 262144,
            0x80 + c.toNat / 4096 % 64, 0x80 + c.toNat / 64 % 64,
            0x80 + c.toNat % 64] := by
          simp [utf8EncodeChar, h1, h2, h3]
        have e1 : ¬(0xF0 + c.toNat / 262144 < 0x80) := by omega
        have e2 : ¬(0xF0 + c.toNat / 262144 < 0xC2) := by omega
        have e3 : ¬(0xF0 + c.toNat / 262144 < 0xE0) := by omega
        have e4 : ¬(0xF0 + c.toNat / 262144 < 0xF0) := by omega
        have e5 : 0xF0 + c.toNat / 262144 < 0xF5 := by omega
        have elow : (if c.toNat / 262144 = 0 then 0x90 else 0x80 : Nat) ≤
            0x80 + c.toNat / 4096 % 64 := by
          by_cases hF : c.toNat / 262144 = 0
          · rw [if_pos hF]
            omega
          · rw [if_neg hF]
            omega
        have ehigh : 0x80 + c.toNat / 4096 % 64 ≤
            (if 0xF0 + c.toNat / 262144 = 0xF4 then 0x8F else 0xBF : Nat) := by
          by_cases hF : 0xF0 + c.toNat / 262144 = 0xF4
          · rw [if_pos hF]
            omega
          · rw [if_neg hF]
            omega
        have e6a : 0x80 ≤ 0x80 + c.toNat / 64 % 64 := by omega
        have e6b : 0x80 + c.toNat / 64 % 64 ≤ 0xBF := by omega
        have e7a : 0x80 ≤ 0x80 + c.toNat % 64 := by omega
        have e7b : 0x80 + c.toNat % 64 ≤ 0xBF := by omega
        rw [hc]
        simp only [List.cons_append, List.nil_append, utf8DecodeLoop, utf8Step,
          utf8StepFresh, utf8InitState]
        simp [e1, e2, e3, e4, e5, elow, ehigh, e6a, e6b, e7a, e7b]
        exact Eq.trans (congrArg Char.ofNat (by omega)) hofNat

/-- Decoding the UTF-8 encoding of a character sequence recovers it. -/
theorem utf8DecodeLoop_encodeList (l : List Char) :
    utf8DecodeLoop utf8InitState (utf8EncodeList l) = l := by
  induction l with
  | nil => rfl
  | cons c cs ih =>
    rw [utf8EncodeList, utf8DecodeLoop_encodeChar, ih]

/-- UTF-8 decoding inverts UTF-8 encoding on every string. -/
theorem utf8Decode_utf8Encode (s : String) : utf8Decode (utf8Encode s) = s.data :=
  utf8DecodeLoop_encodeList s.data

/-- Every byte produced by the UTF-8 encoder of one character is a byte. -/
theorem utf8EncodeChar_lt (c : Char) : ∀ b ∈ utf8EncodeChar c, b < 256 := by
  have hval : c.toNat < 0xd800 ∨ (0xe000 ≤ c.toNat ∧ c.toNat < 0x110000) := c.valid
  intro b hb
  simp only [utf8EncodeChar] at hb
  split_ifs at hb <;> simp at hb <;> omega

/-- Every byte produced by the UTF-8 encoder is a byte. -/
theorem utf8EncodeList_lt (l : List Char) : ∀ b ∈ utf8EncodeList l, b < 256 := by
  induction l with
  | nil => simp [utf8EncodeList]
  | cons c cs ih =>
    intro b hb
    rw [utf8EncodeList] at hb
    rcases List.mem_append.mp hb with h | h
    · exact utf8EncodeChar_lt c b h
    · exact ih b h

/-- Every byte of the UTF-8 encoding of a string is a byte. -/
theorem utf8Encode_lt (s : String) : ∀ b ∈ utf8Encode s, b < 256 :=
  utf8EncodeList_lt s.data

/-- Node's base64 decoder inverts the base64 encoder on byte lists. -/
theorem base64_roundtrip (bs : List Nat) (h : ∀ b ∈ bs, b < 256) :
    base64DecodeChars (base64EncodeChars bs) = bs := by
  induction bs using base64EncodeChars.induct with
  | case1 => rfl
  | case2 b0 =>
    have hb0 : b0 < 256 := h b0 (by simp)
    have h1 : b0 / 4 < 64 := by omega
    have h2 : b0 % 4 * 16 < 64 := by omega
    rw [base64EncodeChars, base64DecodeChars,
      b64_digits_cons _ _ (b64Val_b64Char _ h1) (b64Char_ne_pad _ h1),
      b64_digits_cons _ _ (b64Val_b64Char _ h2) (b64Char_ne_pad _ h2),
      b64_digits_pad]
    show [b0 / 4 * 4 + b0 % 4 * 16 / 16] = [b0]
    have : b0 / 4 * 4 + b0 % 4 * 16 / 16 = b0 := by omega
    rw [this]
  | case3 b0 b1 =>
    have hb0 : b0 < 256 := h b0 (by simp)
    have hb1 : b1 < 256 := h b1 (by simp)
    have h1 : b0 / 4 < 64 := by omega
    have h2 : b0 % 4 * 16 + b1 / 16 < 64 := by omega
    have h3 : b1 % 16 * 4 < 64 := by omega
    rw [base64EncodeChars, base64DecodeChars,
      b64_digits_cons _ _ (b64Val_b64Char _ h1) (b64Char_ne_pad _ h1),
      b64_digits_cons _ _ (b64Val_b64Char _ h2) (b64Char_ne_pad _ h2),
      b64_digits_cons _ _ (b64Val_b64Char _ h3) (b64Char_ne_pad _ h3),
      b64_digits_pad]
    show [b0 / 4 * 4 + (b0 % 4 * 16 + b1 / 16) / 16,
      (b0 % 4 * 16 + b1 / 16) % 16 * 16 + b1 % 16 * 4 / 4] = [b0, b1]
    have e0 : b0 / 4 * 4 + (b0 % 4 * 16 + b1 / 16) / 16 = b0 := by omega
    have e1 : (b0 % 4 * 16 + b1 / 16) % 16 * 16 + b1 % 16 * 4 / 4 = b1 := by omega
    rw [e0, e1]
  | case4 b0 b1 b2 rest ih =>
    have hb0 : b0 < 256 := h b0 (by simp)
    have hb1 : b1 < 256 := h b1 (by simp)
    have hb2 : b2 < 256 := h b2 (by simp)
    have h1 : b0 / 4 < 64 := by omega
    have h2 : b0 % 4 * 16 + b1 / 16 < 64 := by omega
    have h3 : b1 % 16 * 4 + b2 / 64 < 64 := by omega
    have h4 : b2 % 64 < 64 := by omega
    have ih2 := ih fun b hb => h b (by simp [hb])
    rw [base64DecodeChars] at ih2
    rw [base64EncodeChars, base64DecodeChars,
      b64_digits_cons _ _ (b64Val_b64Char _ h1) (b64Char_ne_pad _ h1),
      b64_digits_cons _ _ (b64Val_b64Char _ h2) (b64Char_ne_pad _ h2),
      b64_digits_cons _ _ (b64Val_b64Char _ h3) (b64Char_ne_pad _ h3),
      b64_digits_cons _ _ (b64Val_b64Char _ h4) (b64Char_ne_pad _ h4),
      decodeGroups, ih2]
    have e0 : b0 / 4 * 4 + (b0 % 4 * 16 + b1 / 16) / 16 = b0 := by omega
    have e1 : (b0 % 4 * 16 + b1 / 16) % 16 * 16 + (b1 % 16 * 4 + b2 / 64) / 4 = b1 := by
      omega
    have e2 : (b1 % 16 * 4 + b2 / 64) % 4 * 64 + b2 % 64 = b2 := by omega
    rw [e0, e1, e2]

/-- No character of a base64 encoding of bytes is a space. -/
theorem base64_no_space (bs : List Nat) (h : ∀ b ∈ bs, b < 256) :
    ∀ c ∈ base64EncodeChars bs, c ≠ ' ' := by
  induction bs using base64EncodeChars.induct with
  | case1 => simp [base64EncodeChars]
  | case2 b0 =>
    have hb0 : b0 < 256 := h b0 (by simp)
    rw [base64EncodeChars]
    intro c hc
    simp only [List.mem_cons, List.not_mem_nil, or_false] at hc
    rcases hc with hc | hc | hc | hc
    · subst hc
      exact b64Char_ne_space _ (by omega)
    · subst hc
      exact b64Char_ne_space _ (by omega)
    · subst hc
      decide
    · subst hc
      decide
  | case3 b0 b1 =>
    have hb0 : b0 < 256 := h b0 (by simp)
    have hb1 : b1 < 256 := h b1 (by simp)
    rw [base64EncodeChars]
    intro c hc
    simp only [List.mem_cons, List.not_mem_nil, or_false] at hc
    rcases hc with hc | hc | hc | hc
    · subst hc
      exact b64Char_ne_space _ (by omega)
    · subst hc
      exact b64Char_ne_space _ (by omega)
    · subst hc
      exact b64Char_ne_space _ (by omega)
    · subst hc
      decide
  | case4 b0 b1 b2 rest ih =>
    have hb0 : b0 < 256 := h b0 (by simp)
    have hb1 : b1 < 256 := h b1 (by simp)
    have hb2 : b2 < 256 := h b2 (by simp)
    have ih2 := ih fun b hb => h b (by simp [hb])
    rw [base64EncodeChars]
    intro c hc
    simp only [List.mem_cons] at hc
    rcases hc with hc | hc | hc | hc | hc
    · subst hc
      exact b64Char_ne_space _ (by omega)
    · subst hc
      exact b64Char_ne_space _ (by omega)
    · subst hc
      exact b64Char_ne_space _ (by omega)
    · subst hc
      exact b64Char_ne_space _ (by omega)
    · exact ih2 c hc

/-! ### Helper lemmas: the request gate -/

/-- Looking up the lower-case header name on a single-header request. -/
theorem headersGet_mkReq_lower (v : String) :
    headersGet (mkReq v) "authorization" = some v := rfl

/-- Looking up the capitalised header name on a single-header request. -/
theorem headersGet_mkReq_upper (v : String) :
    headersGet (mkReq v) "Authorization" = some v := rfl

/-- `x || x` collapses on string-or-null values. -/
theorem jsOr_self (v : String) : jsOr (some v) (some v) = some v := by
  simp [jsOr]

/-- One step of the decode loop. -/
theorem utf8DecodeLoop_cons (st : Utf8State) (b : Nat) (bs : List Nat) :
    utf8DecodeLoop st (b :: bs) =
      (utf8Step st b).2 ++ utf8DecodeLoop (utf8Step st b).1 bs := rfl

/-- Evaluating the gate on a request whose Authorization header is a
space-free scheme, a space, and a space-free token: the gate reaches the
credential decision on the decoded token. -/
theorem isAuthenticated_eval (env : Env) (scheme : String) (tok : List Char)
    (hs : ∀ c ∈ scheme.data, c ≠ ' ') (ht : ∀ c ∈ tok, c ≠ ' ') :
    isAuthenticated env (mkReq (scheme ++ " " ++ String.mk tok)) =
      Except.ok (authDecision env (utf8Decode (base64DecodeChars tok))) := by
  have hdata : (scheme ++ " " ++ String.mk tok).data = scheme.data ++ ' ' :: tok := by
    rw [String.data_append, String.data_append, strMk_data]
    simp
  have hsplit : (charSplit ' ' (scheme.data ++ ' ' :: tok))[1]? = some tok := by
    rw [charSplit_append _ _ _ hs, charSplit_no_sep _ _ ht]
    rfl
  unfold isAuthenticated
  rw [headersGet_mkReq_lower, headersGet_mkReq_upper, jsOr_self]
  show (match (charSplit ' ' (scheme ++ " " ++ String.mk tok).data)[1]? with
    | none => Except.error JsError.typeError
    | some tokenChars =>
        Except.ok (authDecision env (utf8Decode (base64DecodeChars tokenChars)))) =
    Except.ok (authDecision env (utf8Decode (base64DecodeChars tok)))
  rw [hdata, hsplit]

/-- The decoded bytes of a base64-encoded UTF-8 payload are the payload's
characters. -/
theorem decode_encode_payload (s : String) :
    utf8Decode (base64DecodeChars (base64EncodeChars (utf8Encode s))) = s.data := by
  rw [base64_roundtrip _ (utf8Encode_lt s), utf8Decode_utf8Encode]

/-- Evaluating the gate on a request whose header carries a base64-encoded
UTF-8 payload: the gate reaches the credential decision on the payload's
characters. -/
theorem isAuthenticated_payload (env : Env) (scheme payload : String)
    (hs : ∀ c ∈ scheme.data, c ≠ ' ') :
    isAuthenticated env (mkReq (scheme ++ " " ++ base64Encode (utf8Encode payload))) =
      Except.ok (authDecision env payload.data) := by
  have h := isAuthenticated_eval env scheme (base64EncodeChars (utf8Encode payload)) hs
    (base64_no_space _ (utf8Encode_lt payload))
  rw [decode_encode_payload] at h
  exact h

/-- The middleware's response once the authentication decision is known. -/
theorem middleware_of_ok (env : Env) (req : NextRequest) (b : Bool)
    (h : isAuthenticated env req = Except.ok b) :
    middleware env req =
      if b = false then Except.ok (some unauthorizedResponse) else Except.ok none := by
  rw [middleware, h]

/-- Strict equality of string-or-undefined values is propositional
equality. -/
theorem jsStrictEq_eq_true_iff (a b : Option String) :
    jsStrictEq a b = true ↔ a = b := by
  simp [jsStrictEq]

/-- The verifier accepts exactly when the stored digest is the rendered
digest of the password. -/
theorem isValidPassword_eq_true_iff (p d : Option String) :
    isValidPassword p d = true ↔ d = some (hashPassword p) := by
  rw [isValidPassword, jsStrictEq_eq_true_iff, eq_comm]

/-- The credential decision on a one-colon payload with colon-free halves:
the text before the colon is the username, the text after it is the
password. -/
theorem authDecision_two (env : Env) (u p : String)
    (hu : ∀ c ∈ u.data, c ≠ ':') (hp : ∀ c ∈ p.data, c ≠ ':') :
    authDecision env (u ++ ":" ++ p).data =
      (jsStrictEq (some u) env.ADMIN_USERNAME &&
        isValidPassword (some p) env.HASHED_ADMIN_PASSWORD) := by
  have hdata : (u ++ ":" ++ p).data = u.data ++ ':' :: p.data := by
    rw [String.data_append, String.data_append]
    simp
  rw [authDecision, hdata, charSplit_append _ _ _ hu, charSplit_no_sep _ _ hp]
  simp [strMk_eta]

/-- The credential decision on a two-or-more-colon payload: only the first
two segments are used; the rest of the payload is discarded. -/
theorem authDecision_three (env : Env) (u v w : String)
    (hu : ∀ c ∈ u.data, c ≠ ':') (hv : ∀ c ∈ v.data, c ≠ ':') :
    authDecision env (u ++ ":" ++ v ++ ":" ++ w).data =
      (jsStrictEq (some u) env.ADMIN_USERNAME &&
        isValidPassword (some v) env.HASHED_ADMIN_PASSWORD) := by
  have hdata : (u ++ ":" ++ v ++ ":" ++ w).data =
      u.data ++ ':' :: (v.data ++ ':' :: w.data) := by
    rw [String.data_append, String.data_append, String.data_append,
      String.data_append]
    simp
  rw [authDecision, hdata, charSplit_append _ _ _ hu, charSplit_append _ _ _ hv]
  simp [strMk_eta]

/-- The credential decision on a colon-free payload: the whole payload is
the username and the destructured password is `undefined`. -/
theorem authDecision_noColon (env : Env) (u : String)
    (hu : ∀ c ∈ u.data, c ≠ ':') :
    authDecision env u.data =
      (jsStrictEq (some u) env.ADMIN_USERNAME &&
        isValidPassword none env.HASHED_ADMIN_PASSWORD) := by
  rw [authDecision, charSplit_no_sep _ _ hu]
  simp [strMk_eta]

/-- The middleware propagates a fault of the authentication check. -/
theorem middleware_of_error (env : Env) (req : NextRequest) (e : JsError)
    (h : isAuthenticated env req = Except.error e) :
    middleware env req = Except.error e := by
  rw [middleware, h]

/-- Every evaluation of the gate is a missing-header deny, a thrown
`TypeError`, or the credential decision on some decoded token. -/
theorem isAuthenticated_shape (env : Env) (req : NextRequest) :
    isAuthenticated env req = Except.error JsError.typeError ∨
      isAuthenticated env req = Except.ok false ∨
      ∃ tok, isAuthenticated env req =
        Except.ok (authDecision env (utf8Decode (base64DecodeChars tok))) := by
  unfold isAuthenticated
  split
  · exact Or.inr (Or.inl rfl)
  · split
    · exact Or.inl rfl
    · exact Or.inr (Or.inr ⟨_, rfl⟩)

/-- A present username string never strictly equals an absent expected
username. -/
theorem jsStrictEq_some_none (s : String) : jsStrictEq (some s) none = false := rfl

/-- The verifier never accepts against an absent stored digest. -/
theorem isValidPassword_none_digest (p : Option String) :
    isValidPassword p none = false := rfl

/-- With either configuration value unprovisioned, the credential decision
is false on every decoded payload: a string username never strictly equals
`undefined`, and a rendered digest string never strictly equals
`undefined`. -/
theorem authDecision_absent (env : Env) (decoded : List Char)
    (h : env.ADMIN_USERNAME = none ∨ env.HASHED_ADMIN_PASSWORD = none) :
    authDecision env decoded = false := by
  rcases h with h | h
  · obtain ⟨g, gs, hg⟩ := List.exists_cons_of_ne_nil (charSplit_ne_nil ':' decoded)
    have h0 : ((charSplit ':' decoded)[0]?).map String.mk = some (String.mk g) := by
      simp [hg]
    rw [authDecision, h0, h, jsStrictEq_some_none, Bool.false_and]
  · rw [authDecision, h, isValidPassword_none_digest, Bool.and_false]

/-! ### Independent test vector -/

/-- The hashing routine on the classic `"abc"` test vector matches the
published SHA-512 digest (FIPS 180-4 appendix) in base64. -/
theorem sha512_abc_test_vector :
    hashPassword (some "abc") =
      "3a81oZNherrMQXNJriBBMRLm+k6JqX6iCp7u5ktV05ohkpkqJ0/BqDa6PCOj/uu9RU1EI2Q86A4qmslPpUyknw==" := rfl

/-! ### Claim theorems -/

/-- C1, counterexample: the gate does NOT split on the first colon only.
The payload `admin:pa:ss:word` decodes correctly, yet the password handed
to the verifier is `pa` — the segment between the first and second colons —
not the remainder `pa:ss:word`; consequently the gate rejects the request
even when the configured digest is exactly the digest of `pa:ss:word`. -/
theorem split_first_colon_counterexample :
    utf8Decode (base64DecodeChars "YWRtaW46cGE6c3M6d29yZA==".data) =
        "admin:pa:ss:word".data ∧
      (((charSplit ':'
          (utf8Decode (base64DecodeChars "YWRtaW46cGE6c3M6d29yZA==".data)))[1]?).map
        String.mk) = some "pa" ∧
      some "pa" ≠ some "pa:ss:word" ∧
      isAuthenticated ⟨some "admin", some (hashPassword (some "pa:ss:word"))⟩
        (mkReq "Basic YWRtaW46cGE6c3M6d29yZA==") = Except.ok false ∧
      isValidPassword (some "pa:ss:word")
        (some (hashPassword (some "pa:ss:word"))) = true := by
  refine ⟨rfl, rfl, by decide, rfl, rfl⟩

/-- C1, amended: the gate splits the decoded payload on EVERY colon; the
username is the text before the first colon and the password is the text
between the first and second colons (any remainder is discarded), and that
segment is what reaches the verifier. -/
theorem split_all_colons_amended (env : Env) (u v w : String)
    (hu : ∀ c ∈ u.data, c ≠ ':') (hv : ∀ c ∈ v.data, c ≠ ':') :
    isAuthenticated env
        (mkReq ("Basic" ++ " " ++ base64Encode (utf8Encode (u ++ ":" ++ v ++ ":" ++ w)))) =
      Except.ok (jsStrictEq (some u) env.ADMIN_USERNAME &&
        isValidPassword (some v) env.HASHED_ADMIN_PASSWORD) := by
  rw [isAuthenticated_payload env "Basic" _ (by decide),
    authDecision_three env u v w hu hv]

/-- C1, witness for the amended theorem at a concrete input. -/
theorem split_all_colons_amended_witness :
    isAuthenticated ⟨some "admin", some "x"⟩
        (mkReq ("Basic" ++ " " ++
          base64Encode (utf8Encode ("admin" ++ ":" ++ "pa" ++ ":" ++ "ss:word")))) =
      Except.ok (jsStrictEq (some "admin") (some "admin") &&
        isValidPassword (some "pa") (some "x")) :=
  split_all_colons_amended ⟨some "admin", some "x"⟩ "admin" "pa" "ss:word"
    (by decide) (by decide)

/-- C2: the claim that every malformed Authorization header collapses to a
401 rejection is contradicted by the code: a header value with no
space-delimited second token (`Basic` alone) makes
`Buffer.from(undefined, "base64")` throw a `TypeError` that the middleware
does not catch.  The other malformed shapes (non-base64 payload `!!!`,
colon-free payload `YWRtaW4=`) do collapse to the 401 rejection. -/
theorem malformed_header_fault :
    middleware ⟨some "admin", some "x"⟩ (mkReq "Basic") =
        Except.error JsError.typeError ∧
      middleware ⟨some "admin", some "x"⟩ (mkReq "Basic !!!") =
        Except.ok (some unauthorizedResponse) ∧
      middleware ⟨some "admin", some "x"⟩ (mkReq "Basic YWRtaW4=") =
        Except.ok (some unauthorizedResponse) :=
  ⟨rfl, rfl, rfl⟩

/-- C3, counterexample: the allow-iff-credentials-match claim fails for a
password containing a colon.  Here the decoded payload is
`admin:pa:ss`, the configured username is `admin` and the configured digest
is exactly the SHA-512/base64 digest of the password `pa:ss`, yet the gate
rejects with 401 because it verifies only the segment `pa`. -/
theorem gate_allow_iff_counterexample :
    middleware ⟨some "admin", some (hashPassword (some "pa:ss"))⟩
        (mkReq ("Basic" ++ " " ++ base64Encode (utf8Encode ("admin" ++ ":" ++ "pa:ss")))) =
      Except.ok (some unauthorizedResponse) ∧
      hashPassword (some "pa:ss") = base64Encode (sha512 (utf8Encode "pa:ss")) :=
  ⟨rfl, rfl⟩

/-- C3, amended: for colon-free usernames and passwords (and a space-free
scheme), the gate allows the request exactly when the decoded username
equals the configured username and the SHA-512/base64 digest of the decoded
password equals the configured digest; otherwise it returns the 401
rejection. -/
theorem gate_allow_iff_amended (env : Env) (scheme u p : String)
    (hs : ∀ c ∈ scheme.data, c ≠ ' ')
    (hu : ∀ c ∈ u.data, c ≠ ':') (hp : ∀ c ∈ p.data, c ≠ ':') :
    (middleware env (mkReq (scheme ++ " " ++ base64Encode (utf8Encode (u ++ ":" ++ p)))) =
        Except.ok none ↔
      env.ADMIN_USERNAME = some u ∧
        env.HASHED_ADMIN_PASSWORD = some (base64Encode (sha512 (utf8Encode p)))) ∧
    (¬(env.ADMIN_USERNAME = some u ∧
        env.HASHED_ADMIN_PASSWORD = some (base64Encode (sha512 (utf8Encode p)))) →
      middleware env (mkReq (scheme ++ " " ++ base64Encode (utf8Encode (u ++ ":" ++ p)))) =
        Except.ok (some unauthorizedResponse)) := by
  have hA := isAuthenticated_payload env scheme (u ++ ":" ++ p) hs
  rw [authDecision_two env u p hu hp] at hA
  have hbiff : (jsStrictEq (some u) env.ADMIN_USERNAME &&
      isValidPassword (some p) env.HASHED_ADMIN_PASSWORD) = true ↔
      (env.ADMIN_USERNAME = some u ∧
        env.HASHED_ADMIN_PASSWORD = some (base64Encode (sha512 (utf8Encode p)))) := by
    rw [Bool.and_eq_true, jsStrictEq_eq_true_iff, isValidPassword_eq_true_iff]
    constructor
    · rintro ⟨ha, hb⟩
      exact ⟨ha.symm, hb⟩
    · rintro ⟨ha, hb⟩
      exact ⟨ha.symm, hb⟩
  rw [middleware_of_ok _ _ _ hA, ← hbiff]
  cases hb : (jsStrictEq (some u) env.ADMIN_USERNAME &&
      isValidPassword (some p) env.HASHED_ADMIN_PASSWORD) with
  | false => simp
  | true => simp

/-- C3, witness for the amended theorem at a concrete input. -/
theorem gate_allow_iff_amended_witness :
    (middleware ⟨some "admin", some (hashPassword (some "pw"))⟩
        (mkReq ("Basic" ++ " " ++ base64Encode (utf8Encode ("admin" ++ ":" ++ "pw")))) =
        Except.ok none ↔
      some "admin" = some "admin" ∧
        some (hashPassword (some "pw")) =
          some (base64Encode (sha512 (utf8Encode "pw")))) ∧
    (¬(some "admin" = some "admin" ∧
        some (hashPassword (some "pw")) =
          some (base64Encode (sha512 (utf8Encode "pw")))) →
      middleware ⟨some "admin", some (hashPassword (some "pw"))⟩
        (mkReq ("Basic" ++ " " ++ base64Encode (utf8Encode ("admin" ++ ":" ++ "pw")))) =
        Except.ok (some unauthorizedResponse)) :=
  gate_allow_iff_amended ⟨some "admin", some (hashPassword (some "pw"))⟩ "Basic"
    "admin" "pw" (by decide) (by decide) (by decide)

/-- C4: the verifier returns true exactly when the base64 rendering of the
SHA-512 digest of the UTF-8 bytes of the password is string-equal to the
stored digest. -/
theorem isValidPassword_spec (p d : String) :
    isValidPassword (some p) (some d) =
      (base64Encode (sha512 (utf8Encode p)) == d) := rfl

/-- C4, witness at a concrete input. -/
theorem isValidPassword_spec_witness :
    isValidPassword (some "secret") (some "x") =
      (base64Encode (sha512 (utf8Encode "secret")) == "x") :=
  isValidPassword_spec "secret" "x"

/-- C5: a request lacking an Authorization header (under either casing of
the header name) receives the rejection response with status 401, body
`Unauthorized` and header `WWW-Authenticate: Basic`. -/
theorem missing_header_401 (env : Env) (req : NextRequest)
    (h1 : headersGet req "authorization" = none)
    (h2 : headersGet req "Authorization" = none) :
    middleware env req = Except.ok (some unauthorizedResponse) ∧
      unauthorizedResponse.status = 401 ∧
      unauthorizedResponse.body = "Unauthorized" ∧
      unauthorizedResponse.headers = [("WWW-Authenticate", "Basic")] := by
  refine ⟨?_, rfl, rfl, rfl⟩
  unfold middleware isAuthenticated
  rw [h1, h2]
  rfl

/-- C5, witness: the empty-header request. -/
theorem missing_header_401_witness :
    middleware ⟨none, none⟩ ⟨[]⟩ = Except.ok (some unauthorizedResponse) ∧
      unauthorizedResponse.status = 401 ∧
      unauthorizedResponse.body = "Unauthorized" ∧
      unauthorizedResponse.headers = [("WWW-Authenticate", "Basic")] :=
  missing_header_401 ⟨none, none⟩ ⟨[]⟩ rfl rfl

/-- C6: the verifier accepts every password against its own rendered digest
(`verify(p, digestOf(p))` is true for all `p`), and verification is
case-sensitive: `secret` verifies against the digest of `secret` but not
against the digest of `Secret`. -/
theorem digest_roundtrip_and_case :
    (∀ p : String, isValidPassword (some p) (some (hashPassword (some p))) = true) ∧
      isValidPassword (some "secret") (some (hashPassword (some "secret"))) = true ∧
      isValidPassword (some "secret") (some (hashPassword (some "Secret"))) = false := by
  have h : ∀ p : String,
      isValidPassword (some p) (some (hashPassword (some p))) = true := by
    intro p
    simp [isValidPassword, jsStrictEq]
  exact ⟨h, h "secret", rfl⟩

/-- C6, witness: the universally quantified round-trip at `secret`. -/
theorem digest_roundtrip_and_case_witness :
    isValidPassword (some "secret") (some (hashPassword (some "secret"))) = true :=
  digest_roundtrip_and_case.1 "secret"

/-- C7: when either configuration value is unprovisioned, no request is
ever allowed: every evaluation of the gate either raises the pre-existing
malformed-header `TypeError` or returns the 401 rejection — never the
pass-through. -/
theorem config_absent_denies (env : Env) (req : NextRequest)
    (h : env.ADMIN_USERNAME = none ∨ env.HASHED_ADMIN_PASSWORD = none) :
    middleware env req ≠ Except.ok none ∧
      (middleware env req = Except.error JsError.typeError ∨
        middleware env req = Except.ok (some unauthorizedResponse)) := by
  rcases isAuthenticated_shape env req with hE | hB | ⟨tok, hT⟩
  · rw [middleware_of_error _ _ _ hE]
    exact ⟨by simp, Or.inl rfl⟩
  · rw [middleware_of_ok _ _ _ hB]
    exact ⟨by simp, Or.inr (by simp)⟩
  · rw [authDecision_absent env _ h] at hT
    rw [middleware_of_ok _ _ _ hT]
    exact ⟨by simp, Or.inr (by simp)⟩

/-- C7, witness: well-formed credentials are still denied when the
username variable is unprovisioned. -/
theorem config_absent_denies_witness :
    middleware ⟨none, some "x"⟩ (mkReq "Basic YWRtaW4=") ≠ Except.ok none ∧
      (middleware ⟨none, some "x"⟩ (mkReq "Basic YWRtaW4=") =
          Except.error JsError.typeError ∨
        middleware ⟨none, some "x"⟩ (mkReq "Basic YWRtaW4=") =
          Except.ok (some unauthorizedResponse)) :=
  config_absent_denies ⟨none, some "x"⟩ (mkReq "Basic YWRtaW4=") (Or.inl rfl)

/-- C8: a request denied for a wrong username and a request denied for a
wrong password digest receive identical responses — the same 401
rejection value — leaking nothing about which field was wrong. -/
theorem deny_indistinguishable (env : Env) (u1 p1 u2 p2 : String)
    (hu1 : ∀ c ∈ u1.data, c ≠ ':') (hp1 : ∀ c ∈ p1.data, c ≠ ':')
    (hu2 : ∀ c ∈ u2.data, c ≠ ':') (hp2 : ∀ c ∈ p2.data, c ≠ ':')
    (hwrongU : jsStrictEq (some u1) env.ADMIN_USERNAME = false)
    (hrightU : jsStrictEq (some u2) env.ADMIN_USERNAME = true)
    (hwrongP : isValidPassword (some p2) env.HASHED_ADMIN_PASSWORD = false) :
    middleware env
        (mkReq ("Basic" ++ " " ++ base64Encode (utf8Encode (u1 ++ ":" ++ p1)))) =
      middleware env
        (mkReq ("Basic" ++ " " ++ base64Encode (utf8Encode (u2 ++ ":" ++ p2)))) ∧
      middleware env
        (mkReq ("Basic" ++ " " ++ base64Encode (utf8Encode (u1 ++ ":" ++ p1)))) =
        Except.ok (some unauthorizedResponse) := by
  have hA1 := isAuthenticated_payload env "Basic" (u1 ++ ":" ++ p1) (by decide)
  rw [authDecision_two env u1 p1 hu1 hp1, hwrongU, Bool.false_and] at hA1
  have hA2 := isAuthenticated_payload env "Basic" (u2 ++ ":" ++ p2) (by decide)
  rw [authDecision_two env u2 p2 hu2 hp2, hrightU, Bool.true_and, hwrongP] at hA2
  rw [middleware_of_ok _ _ _ hA1, middleware_of_ok _ _ _ hA2]
  simp

/-- C8, witness: wrong user with right password versus right user with
wrong password. -/
theorem deny_indistinguishable_witness :
    middleware ⟨some "admin", some (hashPassword (some "pw"))⟩
        (mkReq ("Basic" ++ " " ++ base64Encode (utf8Encode ("bob" ++ ":" ++ "pw")))) =
      middleware ⟨some "admin", some (hashPassword (some "pw"))⟩
        (mkReq ("Basic" ++ " " ++ base64Encode (utf8Encode ("admin" ++ ":" ++ "zz")))) ∧
      middleware ⟨some "admin", some (hashPassword (some "pw"))⟩
        (mkReq ("Basic" ++ " " ++ base64Encode (utf8Encode ("bob" ++ ":" ++ "pw")))) =
        Except.ok (some unauthorizedResponse) :=
  deny_indistinguishable ⟨some "admin", some (hashPassword (some "pw"))⟩
    "bob" "pw" "admin" "zz" (by decide) (by decide) (by decide) (by decide)
    rfl rfl rfl

/-- C9: the verifier is pure and total — on every pair of strings each of
its JavaScript steps succeeds, the run returns `Except.ok` of the very
boolean the pure function computes, and repeated runs are the same
function application. -/
theorem isValidPassword_total (p d : String) :
    isValidPasswordRun (some p) (some d) =
      Except.ok (isValidPassword (some p) (some d)) := rfl

/-- C9, witness at the empty strings. -/
theorem isValidPassword_total_witness :
    isValidPasswordRun (some "") (some "") =
      Except.ok (isValidPassword (some "") (some "")) :=
  isValidPassword_total "" ""

/-- C10: a colon-free payload equal to the expected username destructures
the password as `undefined`, which hashes as the empty string; the request
is allowed exactly when the configured digest is the SHA-512/base64 digest
of the empty string, and denied otherwise. -/
theorem no_colon_payload (env : Env) (u d : String)
    (hu : ∀ c ∈ u.data, c ≠ ':')
    (hU : env.ADMIN_USERNAME = some u) (hH : env.HASHED_ADMIN_PASSWORD = some d) :
    (middleware env (mkReq ("Basic" ++ " " ++ base64Encode (utf8Encode u))) =
        Except.ok none ↔ d = base64Encode (sha512 (utf8Encode ""))) ∧
      (d ≠ base64Encode (sha512 (utf8Encode "")) →
        middleware env (mkReq ("Basic" ++ " " ++ base64Encode (utf8Encode u))) =
          Except.ok (some unauthorizedResponse)) := by
  have hA := isAuthenticated_payload env "Basic" u (by decide)
  rw [authDecision_noColon env u hu, hU, hH] at hA
  have hself : jsStrictEq (some u) (some u) = true := by simp [jsStrictEq]
  rw [hself, Bool.true_and] at hA
  have hhp : hashPassword none = base64Encode (sha512 (utf8Encode "")) := rfl
  have hbiff : isValidPassword none (some d) = true ↔
      d = base64Encode (sha512 (utf8Encode "")) := by
    rw [isValidPassword_eq_true_iff, Option.some_inj, hhp]
  rw [middleware_of_ok _ _ _ hA, ← hbiff]
  cases hb : isValidPassword none (some d) with
  | false => simp
  | true =>
    simp
    exact hbiff.mp hb

/-- C10, witness: when the configured digest is the digest of the empty
string, the colon-free payload `admin` is allowed through. -/
theorem no_colon_payload_witness :
    (middleware ⟨some "admin", some (base64Encode (sha512 (utf8Encode "")))⟩
        (mkReq ("Basic" ++ " " ++ base64Encode (utf8Encode "admin"))) =
        Except.ok none ↔
      base64Encode (sha512 (utf8Encode "")) = base64Encode (sha512 (utf8Encode ""))) ∧
      (base64Encode (sha512 (utf8Encode "")) ≠ base64Encode (sha512 (utf8Encode "")) →
        middleware ⟨some "admin", some (base64Encode (sha512 (utf8Encode "")))⟩
          (mkReq ("Basic" ++ " " ++ base64Encode (utf8Encode "admin"))) =
          Except.ok (some unauthorizedResponse)) :=
  no_colon_payload ⟨some "admin", some (base64Encode (sha512 (utf8Encode "")))⟩
    "admin" (base64Encode (sha512 (utf8Encode ""))) (by decide) rfl rfl
